import Mathlib

/-
Verification development for the android-scraper repository.

The repository contains two revisions of the same program:
  * android_scraper.py       (the current revision; namespace `Scraper`)
  * android_scraper_2018.py  (the 2018 revision; namespace `Scraper2018`)

Python strings are modelled as `List Char`; Python's `str.find`, slicing,
`str.strip`, `str.endswith` and `str.replace` are embedded below.  The
mutable `PdfOutput` object is modelled as an explicit state record, with
`writer.addBookmark` modelled as appending a record to a list of realized
bookmark records and returning its index as the bookmark reference.
-/

/-- Python's `str.find(char)`: the index of the first occurrence of `c`,
or `-1` when `c` does not occur. -/
def pyFindChar (c : Char) : List Char → Int
  | [] => -1
  | x :: xs =>
      if x = c then 0
      else
        let r := pyFindChar c xs
        if r < 0 then -1 else r + 1

/-- Python's `str.find(pat)` for a substring pattern: the index of the first
position where `pat` occurs, as `some i`, or `none` when it does not occur. -/
def pyFindPatAux (pat : List Char) : List Char → Option Nat
  | [] => if pat = [] then some 0 else none
  | c :: rest =>
      if pat.isPrefixOf (c :: rest) then some 0
      else (pyFindPatAux pat rest).map (· + 1)

/-- Python's `str.find(pat)` returning `-1` when the pattern is absent. -/
def pyFindPat (pat l : List Char) : Int :=
  match pyFindPatAux pat l with
  | some n => (n : Int)
  | none => -1

/-- Python's slice `s[:j]` for a possibly negative bound `j`: a negative
bound counts from the end of the string, clamped at zero. -/
def pySliceTo (l : List Char) (j : Int) : List Char :=
  if 0 ≤ j then l.take j.toNat else l.take (l.length - (-j).toNat)

/-- Python whitespace characters recognised by `str.strip`. -/
def pyIsSpace (c : Char) : Bool :=
  c = ' ' || c = '\t' || c = '\n' || c = '\r' || c = Char.ofNat 11 || c = Char.ofNat 12

/-- Python's `str.strip()`: remove leading and trailing whitespace. -/
def pyStrip (l : List Char) : List Char :=
  ((l.dropWhile pyIsSpace).reverse.dropWhile pyIsSpace).reverse

/-- Python's `str.endswith(suffix)`. -/
def pyEndsWith (s suffix : String) : Bool :=
  suffix.data.isSuffixOf s.data

/-- Embeds `title_to_bookmark_title` (identical in both revisions):
`vertical_bar = title.find('|'); if not vertical_bar: return title;
return title[:vertical_bar - 1].strip()`.  Note that Python's `not`
treats only the index `0` as falsy, so the `-1` "not found" result
falls through to the slicing branch. -/
def titleToBookmarkTitle (title : List Char) : List Char :=
  let verticalBar := pyFindChar '|' title
  if verticalBar = 0 then title
  else pyStrip (pySliceTo title (verticalBar - 1))

/-- Little-endian decimal digits of `n`, with enough fuel; the fuel is the
number itself, which bounds the number of divisions by ten. -/
def natDigitsAux : Nat → Nat → List Nat
  | _, 0 => []
  | 0, _ + 1 => []
  | fuel + 1, n + 1 => ((n + 1) % 10) :: natDigitsAux fuel ((n + 1) / 10)

/-- Little-endian decimal digits of `n`. -/
def natDecimal (n : Nat) : List Nat := natDigitsAux n n

/-- The ASCII character of a decimal digit. -/
def digChar (d : Nat) : Char := Char.ofNat (48 + d)

/-- Python's `str(n)` for a natural number: most-significant digit first. -/
def natToChars (n : Nat) : List Char := ((natDecimal n).map digChar).reverse

/-- The value denoted by a little-endian digit list. -/
def decimalVal : List Nat → Nat
  | [] => 0
  | d :: ds => d + 10 * decimalVal ds

/-- The sequence of tentative names tried by `make_unique_filename_ext`:
the base name itself first, then `base2`, `base3`, and so on. -/
def filenameCandidate (base : List Char) : Nat → List Char
  | 0 => base
  | i + 1 => base ++ natToChars (i + 2)

/-- Embeds the `while` loop of `make_unique_filename_ext`: test the tentative
names in order and return the first whose name-plus-extension is not already
in `files`.  The fuel bounds the number of membership tests; the wrapper below
supplies fuel `files.length + 1`, which `makeUniqueGo_fresh` together with
`exists_fresh_candidate` shows is always enough for the loop to exit via the
"not a member" branch, exactly as the Python loop does. -/
def makeUniqueGo (files : List (List Char)) (base ext : List Char) : Nat → Nat → List Char
  | 0, i => filenameCandidate base i ++ ext
  | fuel + 1, i =>
      if filenameCandidate base i ++ ext ∈ files then
        makeUniqueGo files base ext fuel (i + 1)
      else
        filenameCandidate base i ++ ext

/-- Embeds `make_unique_filename_ext` of both revisions.  The registry checked
for collisions is `files_to_clean_up`; note the function itself does not add
anything to that registry. -/
def makeUniqueFilenameExt (files : List (List Char)) (base ext : List Char) : List Char :=
  makeUniqueGo files base ext (files.length + 1) 0

/-- Embeds `url_to_filename`: `name = url[url.find('//') + 2:]`, then each of
the characters `"!/. ?=:'` is replaced by an underscore. -/
def urlBadChars : List Char := [Char.ofNat 34, '!', '/', '.', ' ', '?', '=', ':', Char.ofNat 39]

/-- One `str.replace(char, '_')` pass. -/
def replaceBy (ch : Char) (l : List Char) : List Char :=
  l.map (fun c => if c = ch then '_' else c)

/-- Embeds `url_to_filename` of both revisions. -/
def urlToFilename (url : List Char) : List Char :=
  let start := pyFindPat ['/', '/'] url + 2
  let name := url.drop start.toNat
  urlBadChars.foldl (fun acc ch => replaceBy ch acc) name

/-- A bookmark record created by `writer.addBookmark`: a title, a page
number, an optional parent reference (modelled as an index into the list of
records created so far) and the italic flag (only used by the 2018 revision
for non-nesting headings). -/
structure BookmarkRec where
  title : String
  page : Nat
  parent : Option Nat
  italic : Bool
deriving DecidableEq

namespace Scraper

/-- Embeds `PdfOutput.Bookmark` of android_scraper.py: a heading title and an
optional reference; `pdf_ref = None` means the bookmark is still pending. -/
structure Bookmark where
  title : String
  pdfRef : Option Nat
deriving DecidableEq

/-- Embeds the mutable state of `PdfOutput` in android_scraper.py, together
with the writer it owns.  `numPages` is `writer.getNumPages()`, `bookmarks`
is the list of bookmark records created by `writer.addBookmark` in creation
order (an index into it serves as a bookmark reference), `renderCalls`
records each invocation of `save_url_to_pdf` (the external renderer),
`appendLog` records, for each appended artifact, its URL and the page index
at which its content was placed, and `clock` counts the `time.sleep` calls,
which are the points where an external interrupt can be observed. -/
structure PdfState where
  fileName : String
  delay : Nat
  debug : Bool
  numPages : Nat
  bookmarks : List BookmarkRec
  filesToCleanUp : List (List Char)
  bookmarkStack : List Bookmark
  renderCalls : List String
  appendLog : List (String × Nat)
  clock : Nat
deriving DecidableEq

/-- Embeds `PdfOutput.__init__`. -/
def initState (fileName : String) (delay : Nat) (debug : Bool) : PdfState :=
  ⟨fileName, delay, debug, 0, [], [], [], [], [], 0⟩

/-- Embeds `PdfOutput.push_heading`: append a pending heading entry. -/
def pushHeading (title : String) (s : PdfState) : PdfState :=
  { s with bookmarkStack := s.bookmarkStack ++ [⟨title, none⟩] }

/-- Embeds `PdfOutput.pop_heading` of android_scraper.py: a single
`self.bookmark_stack.pop()` with no cascade. -/
def popHeading (s : PdfState) : PdfState :=
  { s with bookmarkStack := s.bookmarkStack.dropLast }

/-- Embeds the loop of `PdfOutput.create_pending_bookmarks`: walk the stack
bottom-up; every pending entry is realized at `page` with the current
`parent`, and afterwards `parent = bookmark.get_ref()` unconditionally. -/
def realizeLoop (page : Nat) :
    List Bookmark → Option Nat → List BookmarkRec → List Bookmark × List BookmarkRec
  | [], _, books => ([], books)
  | bm :: rest, parent, books =>
      let bm' : Bookmark := if bm.pdfRef = none then ⟨bm.title, some books.length⟩ else bm
      let books' : List BookmarkRec :=
        if bm.pdfRef = none then books ++ [⟨bm.title, page, parent, false⟩] else books
      let next := realizeLoop page rest bm'.pdfRef books'
      (bm' :: next.1, next.2)

/-- Embeds `PdfOutput.create_pending_bookmarks`. -/
def createPendingBookmarks (page : Nat) (s : PdfState) : PdfState :=
  { s with bookmarkStack := (realizeLoop page s.bookmarkStack none s.bookmarks).1,
           bookmarks := (realizeLoop page s.bookmarkStack none s.bookmarks).2 }

/-- Embeds `PdfOutput.bookmark_page`: the parent is the reference of the top
stack entry, or none when the stack is empty. -/
def bookmarkPage (title : String) (page : Nat) (s : PdfState) : PdfState :=
  { s with bookmarks :=
      s.bookmarks ++ [⟨title, page, (s.bookmarkStack.getLast?).bind Bookmark.pdfRef, false⟩] }

/-- Embeds `PdfOutput.append_pdf_to_output`: append the artifact's pages to
the writer and register the file name for later cleanup.  `pageCount` is the
number of pages of the rendered artifact. -/
def appendPdfToOutput (fileName : List Char) (pageCount : Nat) (s : PdfState) : PdfState :=
  { s with numPages := s.numPages + pageCount,
           filesToCleanUp := s.filesToCleanUp ++ [fileName] }

/-- Embeds `PdfOutput.add_page` of android_scraper.py.  `pages url` is the
page count of the document the external renderer produces for `url`.  The
early return for URLs already ending in `.pdf` happens before the delay;
`clock` advances at the `time.sleep` call; in debug mode the page is neither
rendered nor appended. -/
def addPage (pages : String → Nat) (url bookmarkTitle : String) (bookmark : Bool)
    (s : PdfState) : PdfState :=
  if pyEndsWith url ".pdf" then s
  else
    let s1 := { s with clock := s.clock + 1 }
    let fileName := makeUniqueFilenameExt s1.filesToCleanUp (urlToFilename url.data) (".pdf".data)
    if s1.debug then s1
    else
      let s2 := { s1 with renderCalls := s1.renderCalls ++ [url] }
      let pageIndex := s2.numPages
      let s3 := appendPdfToOutput fileName (pages url) s2
      let s4 := { s3 with appendLog := s3.appendLog ++ [(url, pageIndex)] }
      let s5 := createPendingBookmarks pageIndex s4
      if bookmark then bookmarkPage bookmarkTitle pageIndex s5 else s5

/-- The navigation structure driving the traversal: an ordered forest of
navigation nodes, as extracted from the site's menus.  `headingCons` is the
`devsite-nav-heading` case that `scrape_side_menu_item` skips with a TODO;
`groupCons` is an expandable item (heading plus nested children);
`leafCons` is a plain link. -/
inductive NavForest where
  | nil : NavForest
  | leafCons (label url : String) (rest : NavForest)
  | headingCons (label : String) (rest : NavForest)
  | groupCons (label : String) (children rest : NavForest)
deriving DecidableEq

/-- Embeds the recursive descent of `scrape_side_menu_item` (and the
analogous loops of `scrape_lower_tab`/`scrape_upper_tab`): leaves are added
as pages with a bookmark, expandable groups push a heading, recurse into the
children in order and pop the heading, and `devsite-nav-heading` separators
are skipped. -/
def scrapeForest (pages : String → Nat) : NavForest → PdfState → PdfState
  | .nil, s => s
  | .leafCons label url rest, s => scrapeForest pages rest (addPage pages url label true s)
  | .headingCons _ rest, s => scrapeForest pages rest s
  | .groupCons label children rest, s =>
      scrapeForest pages rest (popHeading (scrapeForest pages children (pushHeading label s)))

/-- The URLs of the renderable leaves of a forest, in depth-first document
order; leaves whose URL already ends in `.pdf` are skipped by `add_page`. -/
def renderableLeafUrls : NavForest → List String
  | .nil => []
  | .leafCons _ url rest =>
      (if pyEndsWith url ".pdf" then [] else [url]) ++ renderableLeafUrls rest
  | .headingCons _ rest => renderableLeafUrls rest
  | .groupCons _ children rest => renderableLeafUrls children ++ renderableLeafUrls rest

/-- The argparse arguments registered by `parse_command_line` of
android_scraper.py, one entry per `add_argument` call, each listing the
strings under which the argument is reachable on the command line. -/
def commandLineOptions : List (List String) :=
  [["url"], ["--debug"], ["--delay"], ["-o", "--output"]]

/-- The two ways a run can stop early: `interrupted` models a
`KeyboardInterrupt` delivered at a `time.sleep` call, `renderFailed` models
`subprocess.run(..., check=True)` raising `CalledProcessError` in
`save_url_to_pdf`. -/
inductive RunError where
  | interrupted
  | renderFailed
deriving DecidableEq

/-- Embeds `PdfOutput.add_page` together with its two failure modes.  An
`Except.error` carries the state at the moment the exception is raised, as
Python's exception propagation does.  `intrAt = some k` schedules an external
interrupt for the `time.sleep` call with clock value `k`; a render failure
(`renderOk url = false`) is raised after the renderer has been invoked and
leaves no artifact behind. -/
def addPageE (pages : String → Nat) (renderOk : String → Bool) (intrAt : Option Nat)
    (url bookmarkTitle : String) (bookmark : Bool) (s : PdfState) :
    Except (RunError × PdfState) PdfState :=
  if pyEndsWith url ".pdf" then .ok s
  else if intrAt = some s.clock then .error (.interrupted, s)
  else
    let s1 := { s with clock := s.clock + 1 }
    let fileName := makeUniqueFilenameExt s1.filesToCleanUp (urlToFilename url.data) (".pdf".data)
    if s1.debug then .ok s1
    else
      let s2 := { s1 with renderCalls := s1.renderCalls ++ [url] }
      if renderOk url = false then .error (.renderFailed, s2)
      else
        let pageIndex := s2.numPages
        let s3 := appendPdfToOutput fileName (pages url) s2
        let s4 := { s3 with appendLog := s3.appendLog ++ [(url, pageIndex)] }
        let s5 := createPendingBookmarks pageIndex s4
        .ok (if bookmark then bookmarkPage bookmarkTitle pageIndex s5 else s5)

/-- The effectful traversal: identical to `scrapeForest` but propagating the
two uncaught exceptions, which abandon the remaining siblings and skip the
enclosing `pop_heading` calls, exactly as Python's exception unwinding does. -/
def scrapeForestE (pages : String → Nat) (renderOk : String → Bool) (intrAt : Option Nat) :
    NavForest → PdfState → Except (RunError × PdfState) PdfState
  | .nil, s => .ok s
  | .leafCons label url rest, s =>
      match addPageE pages renderOk intrAt url label true s with
      | .error e => .error e
      | .ok s1 => scrapeForestE pages renderOk intrAt rest s1
  | .headingCons _ rest, s => scrapeForestE pages renderOk intrAt rest s
  | .groupCons label children rest, s =>
      match scrapeForestE pages renderOk intrAt children (pushHeading label s) with
      | .error e => .error e
      | .ok s1 => scrapeForestE pages renderOk intrAt rest (popHeading s1)

/-- Embeds `scrape_site`: push the root page title, add the site main page
without a bookmark of its own, traverse the upper tabs, pop. -/
def scrapeSiteE (pages : String → Nat) (renderOk : String → Bool) (intrAt : Option Nat)
    (rootTitle rootUrl : String) (tabs : NavForest) (s : PdfState) :
    Except (RunError × PdfState) PdfState :=
  match addPageE pages renderOk intrAt rootUrl rootUrl false (pushHeading rootTitle s) with
  | .error e => .error e
  | .ok s1 =>
      match scrapeForestE pages renderOk intrAt tabs s1 with
      | .error e => .error e
      | .ok s2 => .ok (popHeading s2)

/-- The externally observable result of `main`: on normal completion,
`output.finish()` writes the assembled document (its page log) and deletes
every tracked artifact; on `KeyboardInterrupt` the handler only prints
"Cancelled", so nothing is written and the tracked artifacts remain on disk;
any other exception, such as a renderer failure, is uncaught and likewise
aborts before `finish`. -/
inductive MainOutcome where
  | done (pageLog : List (String × Nat)) (leftoverArtifacts : List (List Char))
  | cancelled (leftoverArtifacts : List (List Char))
  | crashed (leftoverArtifacts : List (List Char))
deriving DecidableEq

/-- Embeds `main` of android_scraper.py: the try-block runs `scrape_site`
then `output.finish()`; the only handler catches `KeyboardInterrupt` and
prints, without calling `finish`. -/
def mainModel (pages : String → Nat) (renderOk : String → Bool) (intrAt : Option Nat)
    (rootTitle rootUrl : String) (tabs : NavForest)
    (outName : String) (delay : Nat) (debug : Bool) : MainOutcome :=
  match scrapeSiteE pages renderOk intrAt rootTitle rootUrl tabs (initState outName delay debug) with
  | .ok s => .done s.appendLog []
  | .error (.interrupted, s) => .cancelled s.filesToCleanUp
  | .error (.renderFailed, s) => .crashed s.filesToCleanUp

end Scraper

namespace Scraper2018

/-- Embeds `PdfOutput.Bookmark` of android_scraper_2018.py: besides the
pending/realized reference it carries the `indent` flag — `False` marks a
heading that does not contribute nesting (added by `add_heading`). -/
structure Bookmark where
  title : String
  pdfRef : Option Nat
  indent : Bool
deriving DecidableEq

/-- Embeds the state of `PdfOutput` in android_scraper_2018.py; the fields
mirror the `Scraper.PdfState` fields, with `no_exec` in place of `debug`. -/
structure PdfState where
  fileName : String
  delay : Nat
  noExec : Bool
  numPages : Nat
  bookmarks : List BookmarkRec
  filesToCleanUp : List (List Char)
  bookmarkStack : List Bookmark
  renderCalls : List String
  appendLog : List (String × Nat)
  clock : Nat
deriving DecidableEq

/-- Embeds `PdfOutput.__init__` of the 2018 revision. -/
def initState (fileName : String) (delay : Nat) (noExec : Bool) : PdfState :=
  ⟨fileName, delay, noExec, 0, [], [], [], [], [], 0⟩

/-- Embeds `PdfOutput.push_heading`: a pending entry with `indent=True`. -/
def pushHeading (title : String) (s : PdfState) : PdfState :=
  { s with bookmarkStack := s.bookmarkStack ++ [⟨title, none, true⟩] }

/-- Embeds `PdfOutput.add_heading`: a pending entry with `indent=False`. -/
def addHeading (title : String) (s : PdfState) : PdfState :=
  { s with bookmarkStack := s.bookmarkStack ++ [⟨title, none, false⟩] }

/-- The cascade of `pop_heading`, acting on the reversed stack (top entry
first): `while self.bookmark_stack and (not self.bookmark_stack[-1].indent):
self.bookmark_stack.pop()` pops entries from the top while they have
`indent=False`, which on the reversed list is dropping the leading
non-nesting entries. -/
def popCascadeRev : List Bookmark → List Bookmark
  | [] => []
  | b :: rest => if b.indent then b :: rest else popCascadeRev rest

/-- Embeds `PdfOutput.pop_heading` of android_scraper_2018.py at the level of
the stack: `pop()` the top entry, then cascade. -/
def popHeadingStack (stk : List Bookmark) : List Bookmark :=
  (popCascadeRev stk.dropLast.reverse).reverse

/-- Embeds `PdfOutput.pop_heading` of the 2018 revision. -/
def popHeading (s : PdfState) : PdfState :=
  { s with bookmarkStack := popHeadingStack s.bookmarkStack }

/-- Embeds the loop of `create_pending_bookmarks` (2018): every pending entry
is realized at `page` with the current `parent` and with
`italic = not bookmark.indent`; afterwards `parent` is updated to the entry's
reference only when the entry has `indent=True`. -/
def realizeLoop (page : Nat) :
    List Bookmark → Option Nat → List BookmarkRec → List Bookmark × List BookmarkRec
  | [], _, books => ([], books)
  | bm :: rest, parent, books =>
      let bm' : Bookmark := if bm.pdfRef = none then ⟨bm.title, some books.length, bm.indent⟩ else bm
      let books' : List BookmarkRec :=
        if bm.pdfRef = none then books ++ [⟨bm.title, page, parent, !bm.indent⟩] else books
      let parent' : Option Nat := if bm'.indent then bm'.pdfRef else parent
      let next := realizeLoop page rest parent' books'
      (bm' :: next.1, next.2)

/-- Embeds `PdfOutput.create_pending_bookmarks` of the 2018 revision. -/
def createPendingBookmarks (page : Nat) (s : PdfState) : PdfState :=
  { s with bookmarkStack := (realizeLoop page s.bookmarkStack none s.bookmarks).1,
           bookmarks := (realizeLoop page s.bookmarkStack none s.bookmarks).2 }

/-- Embeds `PdfOutput.bookmark_page` of the 2018 revision: the parent is
`self.bookmark_stack[-1].pdf_ref` whenever the stack is non-empty, with no
regard to the top entry's `indent` flag. -/
def bookmarkPage (title : String) (page : Nat) (s : PdfState) : PdfState :=
  { s with bookmarks :=
      s.bookmarks ++ [⟨title, page, (s.bookmarkStack.getLast?).bind Bookmark.pdfRef, false⟩] }

/-- Embeds `PdfOutput.append_pdf_to_output` of the 2018 revision. -/
def appendPdfToOutput (fileName : List Char) (pageCount : Nat) (s : PdfState) : PdfState :=
  { s with numPages := s.numPages + pageCount,
           filesToCleanUp := s.filesToCleanUp ++ [fileName] }

/-- Embeds `PdfOutput.add_page` of android_scraper_2018.py; structurally the
same as the current revision's, with `no_exec` instead of `debug`. -/
def addPage (pages : String → Nat) (url bookmarkTitle : String) (bookmark : Bool)
    (s : PdfState) : PdfState :=
  if pyEndsWith url ".pdf" then s
  else
    let s1 := { s with clock := s.clock + 1 }
    let fileName := makeUniqueFilenameExt s1.filesToCleanUp (urlToFilename url.data) (".pdf".data)
    if s1.noExec then s1
    else
      let s2 := { s1 with renderCalls := s1.renderCalls ++ [url] }
      let pageIndex := s2.numPages
      let s3 := appendPdfToOutput fileName (pages url) s2
      let s4 := { s3 with appendLog := s3.appendLog ++ [(url, pageIndex)] }
      let s5 := createPendingBookmarks pageIndex s4
      if bookmark then bookmarkPage bookmarkTitle pageIndex s5 else s5

end Scraper2018

/-- The parent accumulator of the 2018 realization loop over an
already-processed stack segment: starting from `init`, each entry with
`indent=True` replaces the accumulator with its own reference, each entry
with `indent=False` leaves it unchanged. -/
def parentAfter (init : Option Nat) (stk : List Scraper2018.Bookmark) : Option Nat :=
  stk.foldl (fun acc b => if b.indent then b.pdfRef else acc) init

/-- Modelled from the spec's words: the reference of the nearest entry that
contributes nesting, scanning the stack from the top downwards and skipping
every non-nesting entry, falling back to `init` (the parent from outside the
segment) when no nesting entry exists. -/
def nearestNestingRef (init : Option Nat) (stk : List Scraper2018.Bookmark) : Option Nat :=
  match stk.reverse.find? (fun b => b.indent) with
  | some b => b.pdfRef
  | none => init

theorem natDigitsAux_val : ∀ fuel n, n ≤ fuel → decimalVal (natDigitsAux fuel n) = n := by
  intro fuel
  induction fuel with
  | zero =>
      intro n hn
      interval_cases n
      simp [natDigitsAux, decimalVal]
  | succ f ih =>
      intro n hn
      match n with
      | 0 => simp [natDigitsAux, decimalVal]
      | m + 1 =>
          have hdiv : (m + 1) / 10 ≤ f := by
            have := Nat.div_lt_self (Nat.succ_pos m) (by norm_num : 1 < 10)
            omega
          simp only [natDigitsAux, decimalVal, ih _ hdiv]
          omega

theorem natDecimal_val (n : Nat) : decimalVal (natDecimal n) = n :=
  natDigitsAux_val n n (Nat.le_refl n)

theorem natDecimal_injective : Function.Injective natDecimal := by
  intro m n h
  have := natDecimal_val m
  rw [h, natDecimal_val] at this
  omega

theorem natDigitsAux_lt : ∀ fuel n, ∀ d ∈ natDigitsAux fuel n, d < 10 := by
  intro fuel
  induction fuel with
  | zero =>
      intro n d hd
      match n with
      | 0 => simp [natDigitsAux] at hd
      | m + 1 => simp [natDigitsAux] at hd
  | succ f ih =>
      intro n d hd
      match n with
      | 0 => simp [natDigitsAux] at hd
      | m + 1 =>
          simp only [natDigitsAux, List.mem_cons] at hd
          rcases hd with h | h
          · omega
          · exact ih _ _ h

theorem digChar_inj : ∀ d1 < 10, ∀ d2 < 10, digChar d1 = digChar d2 → d1 = d2 := by
  decide

theorem map_digChar_inj :
    ∀ l1 l2 : List Nat, (∀ d ∈ l1, d < 10) → (∀ d ∈ l2, d < 10) →
      l1.map digChar = l2.map digChar → l1 = l2 := by
  intro l1
  induction l1 with
  | nil =>
      intro l2 _ _ h
      cases l2 with
      | nil => rfl
      | cons b bs => simp at h
  | cons a as ih =>
      intro l2 h1 h2 h
      cases l2 with
      | nil => simp at h
      | cons b bs =>
          simp only [List.map_cons, List.cons.injEq] at h
          have ha : a < 10 := h1 a (List.mem_cons_self a as)
          have hb : b < 10 := h2 b (List.mem_cons_self b bs)
          have hab : a = b := digChar_inj a ha b hb h.1
          have : as = bs :=
            ih bs (fun d hd => h1 d (List.mem_cons_of_mem a hd))
              (fun d hd => h2 d (List.mem_cons_of_mem b hd)) h.2
          rw [hab, this]

theorem natToChars_injective : Function.Injective natToChars := by
  intro m n h
  unfold natToChars at h
  have h' := List.reverse_injective h
  have := map_digChar_inj (natDecimal m) (natDecimal n)
    (natDigitsAux_lt m m) (natDigitsAux_lt n n) h'
  exact natDecimal_injective this

theorem natToChars_ne_nil (n : Nat) : natToChars (n + 1) ≠ [] := by
  unfold natToChars natDecimal
  simp [natDigitsAux]

theorem filenameCandidate_injective (base : List Char) :
    Function.Injective (filenameCandidate base) := by
  intro i j h
  match i, j with
  | 0, 0 => rfl
  | 0, j + 1 =>
      exfalso
      have hlen := congrArg List.length h
      simp only [filenameCandidate, List.length_append] at hlen
      have : natToChars (j + 2) ≠ [] := natToChars_ne_nil (j + 1)
      have : 0 < (natToChars (j + 2)).length := List.length_pos.mpr this
      omega
  | i + 1, 0 =>
      exfalso
      have hlen := congrArg List.length h
      simp only [filenameCandidate, List.length_append] at hlen
      have : natToChars (i + 2) ≠ [] := natToChars_ne_nil (i + 1)
      have : 0 < (natToChars (i + 2)).length := List.length_pos.mpr this
      omega
  | i + 1, j + 1 =>
      simp only [filenameCandidate] at h
      have h' := List.append_cancel_left h
      have := natToChars_injective h'
      omega

theorem makeUniqueGo_fresh (files : List (List Char)) (base ext : List Char) :
    ∀ fuel i, (∃ j, j < fuel ∧ filenameCandidate base (i + j) ++ ext ∉ files) →
      makeUniqueGo files base ext fuel i ∉ files := by
  intro fuel
  induction fuel with
  | zero =>
      intro i h
      rcases h with ⟨j, hj, _⟩
      omega
  | succ f ih =>
      intro i h
      rcases h with ⟨j, hj, hfresh⟩
      unfold makeUniqueGo
      by_cases hmem : filenameCandidate base i ++ ext ∈ files
      · simp only [hmem, if_true]
        match j, hfresh with
        | 0, hfresh => exact absurd (by simpa using hmem) (by simpa using hfresh)
        | j + 1, hfresh =>
            apply ih
            refine ⟨j, by omega, ?_⟩
            have : i + 1 + j = i + (j + 1) := by omega
            rw [this]
            exact hfresh
      · rw [if_neg hmem]
        exact hmem

theorem exists_fresh_candidate (files : List (List Char)) (base ext : List Char) :
    ∃ j, j ≤ files.length ∧ filenameCandidate base j ++ ext ∉ files := by
  by_contra hcon
  push_neg at hcon
  have hinj : Function.Injective (fun j => filenameCandidate base j ++ ext) := by
    intro a b hab
    exact filenameCandidate_injective base (List.append_cancel_right hab)
  have hcard : (Finset.range (files.length + 1)).card ≤ files.toFinset.card := by
    apply Finset.card_le_card_of_injOn (fun j => filenameCandidate base j ++ ext)
    · intro j hj
      rw [List.mem_toFinset]
      exact hcon j (by simpa using Nat.lt_succ_iff.mp (Finset.mem_range.mp hj))
    · intro a _ b _ hab
      exact hinj hab
  have hle : files.toFinset.card ≤ files.length := files.toFinset_card_le
  simp only [Finset.card_range] at hcard
  omega

theorem makeUniqueFilenameExt_fresh (files : List (List Char)) (base ext : List Char) :
    makeUniqueFilenameExt files base ext ∉ files := by
  apply makeUniqueGo_fresh
  rcases exists_fresh_candidate files base ext with ⟨j, hj, hfresh⟩
  exact ⟨j, by omega, by simpa using hfresh⟩

theorem pySliceTo_neg_two (l : List Char) : pySliceTo l (-2) = l.take (l.length - 2) := by
  simp [pySliceTo]

/-- C10: `title_to_bookmark_title` guards with Python's `not` on the index
returned by `find`, so only a `|` at position 0 returns the title unchanged;
when `|` is absent (`find` returns `-1`) the result is `title[:-2].strip()`
(the last two characters dropped, then stripped), and when `|` occurs at a
position `p > 0` the result is `title[:p-1].strip()`. -/
theorem c10_title_truncation (t : List Char) :
    (pyFindChar '|' t = -1 →
      titleToBookmarkTitle t = pyStrip (t.take (t.length - 2))) ∧
    (pyFindChar '|' t = 0 → titleToBookmarkTitle t = t) ∧
    (∀ p : Nat, pyFindChar '|' t = (p : Int) → 0 < p →
      titleToBookmarkTitle t = pyStrip (t.take (p - 1))) := by
  refine ⟨?_, ?_, ?_⟩
  · intro h
    simp only [titleToBookmarkTitle, h]
    norm_num
    exact congrArg pyStrip (pySliceTo_neg_two t)
  · intro h
    simp [titleToBookmarkTitle, h]
  · intro p h hp
    have hne : ((p : Int) ≠ 0) := by exact_mod_cast hp.ne'
    simp only [titleToBookmarkTitle, h, if_neg hne]
    congr 1
    simp only [pySliceTo, if_pos (by omega : (0 : Int) ≤ (p : Int) - 1)]
    congr 1
    omega

theorem c10_title_truncation_witness :
    titleToBookmarkTitle ("Menu Title".data) = pyStrip (("Menu Title".data).take 8) ∧
    titleToBookmarkTitle ("| x".data) = "| x".data ∧
    titleToBookmarkTitle ("Dashboard | Site".data) = pyStrip (("Dashboard | Site".data).take 9) := by
  refine ⟨?_, ?_, ?_⟩
  · exact (c10_title_truncation ("Menu Title".data)).1 (by decide)
  · exact (c10_title_truncation ("| x".data)).2.1 (by decide)
  · exact (c10_title_truncation ("Dashboard | Site".data)).2.2 10 (by decide) (by decide)

/-- C5 amended: `make_unique_filename_ext` always returns a name that is not
yet in `files_to_clean_up`, so two allocations are distinct whenever the
first result is registered (as `append_pdf_to_output` does after a
successful render) before the second allocation; the allocator itself,
however, registers nothing before returning. -/
theorem c5_amended (files : List (List Char)) (base base2 ext ext2 : List Char) :
    makeUniqueFilenameExt files base ext ∉ files ∧
    makeUniqueFilenameExt (files ++ [makeUniqueFilenameExt files base ext]) base2 ext2
      ≠ makeUniqueFilenameExt files base ext := by
  refine ⟨makeUniqueFilenameExt_fresh files base ext, ?_⟩
  intro h
  have hfresh :=
    makeUniqueFilenameExt_fresh (files ++ [makeUniqueFilenameExt files base ext]) base2 ext2
  rw [h] at hfresh
  simp at hfresh

/-- C5 counterexample: the URLs `http://a/b` and `http://a.b` are distinct
but share the base identifier `a_b`; two allocation calls against the same
registry state (as happens in a `--debug` run, where nothing is ever
registered) return the same identifier `a_b.pdf`, and the allocation
performed inside `add_page` leaves `files_to_clean_up` untouched —
registration happens only later, inside `append_pdf_to_output`. -/
theorem c5_counterexample :
    ("http://a/b" : String) ≠ "http://a.b" ∧
    urlToFilename ("http://a/b".data) = urlToFilename ("http://a.b".data) ∧
    makeUniqueFilenameExt [] (urlToFilename ("http://a/b".data)) (".pdf".data)
      = makeUniqueFilenameExt [] (urlToFilename ("http://a.b".data)) (".pdf".data) ∧
    (Scraper.addPage (fun _ => 1) "http://a/b" "T" true
        (Scraper.initState "o.pdf" 1 true)).filesToCleanUp = [] := by
  refine ⟨by decide, by decide, by decide, by decide⟩

/-- C9: a leaf whose URL already ends in `.pdf` makes `add_page` return
before the delay, the identifier allocation, the render and the bookmark
work, leaving the whole output state unchanged, in both revisions and in
the effectful model. -/
theorem c9_pdf_leaf_skipped (pages : String → Nat) (renderOk : String → Bool)
    (intrAt : Option Nat) (url title : String) (bm : Bool)
    (s : Scraper.PdfState) (s2 : Scraper2018.PdfState)
    (h : pyEndsWith url ".pdf" = true) :
    Scraper.addPage pages url title bm s = s ∧
    Scraper2018.addPage pages url title bm s2 = s2 ∧
    Scraper.addPageE pages renderOk intrAt url title bm s = .ok s := by
  refine ⟨?_, ?_, ?_⟩
  · simp [Scraper.addPage, h]
  · simp [Scraper2018.addPage, h]
  · simp [Scraper.addPageE, h]

theorem c9_pdf_leaf_skipped_witness :
    pyEndsWith "http://a/doc.pdf" ".pdf" = true ∧
    Scraper.addPage (fun _ => 1) "http://a/doc.pdf" "T" true (Scraper.initState "o.pdf" 1 false)
      = Scraper.initState "o.pdf" 1 false ∧
    Scraper2018.addPage (fun _ => 1) "http://a/doc.pdf" "T" true
        (Scraper2018.initState "o.pdf" 1 false)
      = Scraper2018.initState "o.pdf" 1 false ∧
    Scraper.addPageE (fun _ => 1) (fun _ => true) none "http://a/doc.pdf" "T" true
        (Scraper.initState "o.pdf" 1 false)
      = .ok (Scraper.initState "o.pdf" 1 false) := by
  refine ⟨by decide, ?_⟩
  exact c9_pdf_leaf_skipped (fun _ => 1) (fun _ => true) none "http://a/doc.pdf" "T" true
    (Scraper.initState "o.pdf" 1 false) (Scraper2018.initState "o.pdf" 1 false) (by decide)

theorem popCascadeRev_append (l m : List Scraper2018.Bookmark)
    (hl : ∀ d ∈ l, d.indent = false) :
    Scraper2018.popCascadeRev (l ++ m) = Scraper2018.popCascadeRev m := by
  induction l with
  | nil => rfl
  | cons a as ih =>
      have ha : a.indent = false := hl a (List.mem_cons_self a as)
      simp only [List.cons_append, Scraper2018.popCascadeRev, ha]
      exact ih (fun d hd => hl d (List.mem_cons_of_mem a hd))

theorem popCascadeRev_indent (b : Scraper2018.Bookmark) (m : List Scraper2018.Bookmark)
    (hb : b.indent = true) :
    Scraper2018.popCascadeRev (b :: m) = b :: m := by
  simp [Scraper2018.popCascadeRev, hb]

/-- C1 amended: in the 2018 revision, `pop_heading` removes the top entry and
then cascades through every further top entry with `indent=False`, with no
regard to whether the entry is pending or already realized; the cascade stops
only at a nesting entry (or at the bottom of the stack).  In the current
revision `pop_heading` is a single pop; there every stack entry nests, so no
cascade exists. -/
theorem c1_amended (base : List Scraper2018.Bookmark) (b : Scraper2018.Bookmark)
    (deco : List Scraper2018.Bookmark) (top : Scraper2018.Bookmark)
    (hb : b.indent = true) (hdeco : ∀ d ∈ deco, d.indent = false) :
    Scraper2018.popHeadingStack (base ++ b :: deco ++ [top]) = base ++ [b] ∧
    Scraper2018.popHeadingStack (deco ++ [top]) = [] := by
  constructor
  · unfold Scraper2018.popHeadingStack
    have h1 : (base ++ b :: deco ++ [top]).dropLast = base ++ b :: deco := by
      rw [show base ++ b :: deco ++ [top] = (base ++ b :: deco) ++ [top] by simp]
      exact List.dropLast_concat
    rw [h1]
    have h2 : (base ++ b :: deco).reverse = deco.reverse ++ (b :: base.reverse) := by
      simp
    rw [h2, popCascadeRev_append _ _ (fun d hd => hdeco d (List.mem_reverse.mp hd)),
      popCascadeRev_indent b _ hb]
    simp
  · unfold Scraper2018.popHeadingStack
    rw [List.dropLast_concat]
    have := popCascadeRev_append deco.reverse []
      (fun d hd => hdeco d (List.mem_reverse.mp hd))
    rw [List.append_nil] at this
    rw [this]
    rfl

theorem c1_amended_witness :
    Scraper2018.popHeadingStack
        [⟨"root", some 0, true⟩, ⟨"sec", none, true⟩,
          ⟨"deco1", some 1, false⟩, ⟨"deco2", none, false⟩, ⟨"grp", none, true⟩]
      = [⟨"root", some 0, true⟩, ⟨"sec", none, true⟩] ∧
    Scraper2018.popHeadingStack
        [⟨"deco1", some 1, false⟩, ⟨"deco2", none, false⟩, ⟨"grp", none, true⟩]
      = [] :=
  c1_amended [⟨"root", some 0, true⟩] ⟨"sec", none, true⟩
    [⟨"deco1", some 1, false⟩, ⟨"deco2", none, false⟩] ⟨"grp", none, true⟩
    (by decide) (by decide)

/-- C1 counterexample: with a non-nesting entry that is already realized
(`pdf_ref = some 0`) sitting below the popped top, the 2018 `pop_heading`
pops it as well, whereas the claim says a non-nesting but realized entry
stops the cascade and stays on the stack. -/
theorem c1_counterexample :
    Scraper2018.popHeadingStack
        [⟨"decorative", some 0, false⟩, ⟨"section", none, true⟩] = [] ∧
    Scraper2018.popHeadingStack
        [⟨"decorative", some 0, false⟩, ⟨"section", none, true⟩]
      ≠ [⟨"decorative", some 0, false⟩] := by
  refine ⟨by decide, by decide⟩

theorem parentAfter_eq_nearestNestingRef (init : Option Nat)
    (l : List Scraper2018.Bookmark) :
    parentAfter init l = nearestNestingRef init l := by
  induction l using List.reverseRecOn with
  | nil => rfl
  | append_singleton l a ih =>
      by_cases ha : a.indent = true
      · simp [parentAfter, nearestNestingRef, List.foldl_append, List.find?_cons, ha]
      · have ha' : a.indent = false := by revert ha; cases a.indent <;> simp
        simp only [parentAfter, List.foldl_append, List.foldl_cons, List.foldl_nil, ha',
          Bool.false_eq_true, if_false]
        rw [show (l.foldl (fun acc b => if b.indent then b.pdfRef else acc) init)
            = parentAfter init l from rfl, ih]
        simp [nearestNestingRef, List.find?_cons, ha']

theorem realizeLoop_append (page : Nat) (pre post : List Scraper2018.Bookmark)
    (parent : Option Nat) (books : List BookmarkRec) :
    Scraper2018.realizeLoop page (pre ++ post) parent books
      = ((Scraper2018.realizeLoop page pre parent books).1
           ++ (Scraper2018.realizeLoop page post
                (parentAfter parent (Scraper2018.realizeLoop page pre parent books).1)
                (Scraper2018.realizeLoop page pre parent books).2).1,
         (Scraper2018.realizeLoop page post
            (parentAfter parent (Scraper2018.realizeLoop page pre parent books).1)
            (Scraper2018.realizeLoop page pre parent books).2).2) := by
  induction pre generalizing parent books with
  | nil => simp [Scraper2018.realizeLoop, parentAfter]
  | cons a pre ih =>
      simp only [List.cons_append, Scraper2018.realizeLoop, List.append_eq]
      rw [ih]
      simp [parentAfter, List.foldl_cons]

theorem realizeLoop_books_grow (page : Nat) :
    ∀ (l : List Scraper2018.Bookmark) (parent : Option Nat) (books : List BookmarkRec),
      ∃ t, (Scraper2018.realizeLoop page l parent books).2 = books ++ t := by
  intro l
  induction l with
  | nil => intro parent books; exact ⟨[], by simp [Scraper2018.realizeLoop]⟩
  | cons a rest ih =>
      intro parent books
      simp only [Scraper2018.realizeLoop]
      by_cases ha : a.pdfRef = none
      · rcases ih (if (if a.pdfRef = none then
              (⟨a.title, some books.length, a.indent⟩ : Scraper2018.Bookmark) else a).indent
            then (if a.pdfRef = none then
              (⟨a.title, some books.length, a.indent⟩ : Scraper2018.Bookmark) else a).pdfRef
            else parent)
          (if a.pdfRef = none then
            books ++ [⟨a.title, page, parent, !a.indent⟩] else books) with ⟨t, ht⟩
        refine ⟨(if a.pdfRef = none then [⟨a.title, page, parent, !a.indent⟩] else []) ++ t, ?_⟩
        rw [ht]
        simp [ha]
      · rcases ih (if (if a.pdfRef = none then
              (⟨a.title, some books.length, a.indent⟩ : Scraper2018.Bookmark) else a).indent
            then (if a.pdfRef = none then
              (⟨a.title, some books.length, a.indent⟩ : Scraper2018.Bookmark) else a).pdfRef
            else parent)
          (if a.pdfRef = none then
            books ++ [⟨a.title, page, parent, !a.indent⟩] else books) with ⟨t, ht⟩
        refine ⟨(if a.pdfRef = none then [⟨a.title, page, parent, !a.indent⟩] else []) ++ t, ?_⟩
        rw [ht]
        simp [ha]

/-- C3 amended: for every stack decomposition `pre ++ b :: post` around a
pending entry `b` (any length, any mixture of realized and pending, nesting
and non-nesting entries), a realization pass at position `page` creates the
record for `b` at exactly `page` — the same position whether or not `b`
nests — with parent the reference of the nearest nesting entry of the
realized prefix below it (every non-nesting entry is skipped, whether
pending or realized); `b` receives reference `books1.length` and seeds the
parent for the entries realized above it only when it nests, otherwise the
nearest nesting reference below stays in force; `b`'s record sits at exactly
that reference in the final record list.  The leaf-level bookmark added by
`bookmark_page`, however, is parented to the reference of the topmost stack
entry regardless of its nesting flag, so when the top entry is a realized
non-nesting heading the leaf bookmark is parented to it and not to the
nearest nesting realized entry. -/
theorem c3_amended (page : Nat) (pre post : List Scraper2018.Bookmark)
    (b : Scraper2018.Bookmark) (parent : Option Nat) (books : List BookmarkRec)
    (pre1 : List Scraper2018.Bookmark) (books1 : List BookmarkRec)
    (hb : b.pdfRef = none)
    (hpre : Scraper2018.realizeLoop page pre parent books = (pre1, books1)) :
    (Scraper2018.realizeLoop page (pre ++ b :: post) parent books).1
      = pre1 ++ ⟨b.title, some books1.length, b.indent⟩
          :: (Scraper2018.realizeLoop page post
                (if b.indent then some books1.length else nearestNestingRef parent pre1)
                (books1
                  ++ [⟨b.title, page, nearestNestingRef parent pre1, !b.indent⟩])).1 ∧
    (Scraper2018.realizeLoop page (pre ++ b :: post) parent books).2
      = (Scraper2018.realizeLoop page post
          (if b.indent then some books1.length else nearestNestingRef parent pre1)
          (books1 ++ [⟨b.title, page, nearestNestingRef parent pre1, !b.indent⟩])).2 ∧
    ((Scraper2018.realizeLoop page (pre ++ b :: post) parent books).2)[books1.length]?
      = some ⟨b.title, page, nearestNestingRef parent pre1, !b.indent⟩ ∧
    ∀ (s : Scraper2018.PdfState) (t : String) (p : Nat)
        (base : List Scraper2018.Bookmark) (top : Scraper2018.Bookmark),
      s.bookmarkStack = base ++ [top] →
        (Scraper2018.bookmarkPage t p s).bookmarks
          = s.bookmarks ++ [⟨t, p, top.pdfRef, false⟩] := by
  have h := realizeLoop_append page pre (b :: post) parent books
  rw [hpre, parentAfter_eq_nearestNestingRef] at h
  have hstep : Scraper2018.realizeLoop page (b :: post) (nearestNestingRef parent pre1) books1
      = (⟨b.title, some books1.length, b.indent⟩
          :: (Scraper2018.realizeLoop page post
                (if b.indent then some books1.length else nearestNestingRef parent pre1)
                (books1
                  ++ [⟨b.title, page, nearestNestingRef parent pre1, !b.indent⟩])).1,
         (Scraper2018.realizeLoop page post
            (if b.indent then some books1.length else nearestNestingRef parent pre1)
            (books1
              ++ [⟨b.title, page, nearestNestingRef parent pre1, !b.indent⟩])).2) := by
    simp [Scraper2018.realizeLoop, hb]
  rw [hstep] at h
  have h1 : (Scraper2018.realizeLoop page (pre ++ b :: post) parent books).1
      = pre1 ++ ⟨b.title, some books1.length, b.indent⟩
          :: (Scraper2018.realizeLoop page post
                (if b.indent then some books1.length else nearestNestingRef parent pre1)
                (books1
                  ++ [⟨b.title, page, nearestNestingRef parent pre1, !b.indent⟩])).1 := by
    rw [h]
  have h2 : (Scraper2018.realizeLoop page (pre ++ b :: post) parent books).2
      = (Scraper2018.realizeLoop page post
          (if b.indent then some books1.length else nearestNestingRef parent pre1)
          (books1 ++ [⟨b.title, page, nearestNestingRef parent pre1, !b.indent⟩])).2 := by
    rw [h]
  refine ⟨h1, h2, ?_, ?_⟩
  · rcases realizeLoop_books_grow page post
        (if b.indent then some books1.length else nearestNestingRef parent pre1)
        (books1 ++ [⟨b.title, page, nearestNestingRef parent pre1, !b.indent⟩]) with ⟨t, ht⟩
    rw [h2, ht, List.append_assoc, List.getElem?_append_right (Nat.le_refl books1.length)]
    simp
  · intro s t p base top hst
    simp [Scraper2018.bookmarkPage, hst, List.getLast?_concat]

theorem c3_amended_witness :
    (Scraper2018.realizeLoop 5
        ([⟨"A", some 7, true⟩, ⟨"X", none, false⟩]
          ++ (⟨"B", none, false⟩ : Scraper2018.Bookmark) :: [⟨"C", none, true⟩])
        none [⟨"old", 0, none, false⟩]).1
      = [⟨"A", some 7, true⟩, ⟨"X", some 1, false⟩]
          ++ ⟨"B", some 2, false⟩
            :: (Scraper2018.realizeLoop 5 [⟨"C", none, true⟩] (some 7)
                  ([⟨"old", 0, none, false⟩, ⟨"X", 5, some 7, true⟩]
                    ++ [⟨"B", 5, some 7, true⟩])).1 ∧
    (Scraper2018.realizeLoop 5
        ([⟨"A", some 7, true⟩, ⟨"X", none, false⟩]
          ++ (⟨"B", none, false⟩ : Scraper2018.Bookmark) :: [⟨"C", none, true⟩])
        none [⟨"old", 0, none, false⟩]).2
      = (Scraper2018.realizeLoop 5 [⟨"C", none, true⟩] (some 7)
          ([⟨"old", 0, none, false⟩, ⟨"X", 5, some 7, true⟩]
            ++ [⟨"B", 5, some 7, true⟩])).2 ∧
    ((Scraper2018.realizeLoop 5
        ([⟨"A", some 7, true⟩, ⟨"X", none, false⟩]
          ++ (⟨"B", none, false⟩ : Scraper2018.Bookmark) :: [⟨"C", none, true⟩])
        none [⟨"old", 0, none, false⟩]).2)[2]?
      = some ⟨"B", 5, some 7, true⟩ ∧
    (Scraper2018.bookmarkPage "L" 3
        ⟨"o.pdf", 1, false, 3, [], [],
          [⟨"A", some 0, true⟩, ⟨"D", some 1, false⟩], [], [], 0⟩).bookmarks
      = [] ++ [⟨"L", 3, some 1, false⟩] := by
  have h := c3_amended 5 [⟨"A", some 7, true⟩, ⟨"X", none, false⟩] [⟨"C", none, true⟩]
    ⟨"B", none, false⟩ none [⟨"old", 0, none, false⟩]
    [⟨"A", some 7, true⟩, ⟨"X", some 1, false⟩]
    [⟨"old", 0, none, false⟩, ⟨"X", 5, some 7, true⟩] rfl (by decide)
  exact ⟨h.1, h.2.1, h.2.2.1,
    h.2.2.2 ⟨"o.pdf", 1, false, 3, [], [], [⟨"A", some 0, true⟩, ⟨"D", some 1, false⟩], [], [], 0⟩
      "L" 3 [⟨"A", some 0, true⟩] ⟨"D", some 1, false⟩ rfl⟩

/-- C3 counterexample: with the stack `[Chapter (nesting), Deco (non-nesting)]`,
adding a page realizes both headings at page 0 and then adds the leaf
bookmark with parent reference `some 1` — the non-nesting `Deco` record —
whereas the claim says the leaf bookmark is parented to the nearest nesting
realized entry, which is `Chapter` at reference `some 0`. -/
theorem c3_counterexample :
    (Scraper2018.addPage (fun _ => 1) "http://site/page" "Leaf" true
        (Scraper2018.addHeading "Deco"
          (Scraper2018.pushHeading "Chapter" (Scraper2018.initState "o.pdf" 1 false)))).bookmarks
      = [⟨"Chapter", 0, none, false⟩, ⟨"Deco", 0, some 0, true⟩, ⟨"Leaf", 0, some 1, false⟩] ∧
    (some 1 : Option Nat) ≠ some 0 := by
  refine ⟨by decide, by decide⟩

theorem addPage_skippable (pages : String → Nat) (url title : String) (bm : Bool)
    (s : Scraper.PdfState) (h : pyEndsWith url ".pdf" = true) :
    Scraper.addPage pages url title bm s = s := by
  simp [Scraper.addPage, h]

theorem addPage_spec (pages : String → Nat) (url title : String) (bm : Bool)
    (s : Scraper.PdfState) (h : pyEndsWith url ".pdf" = false) (hd : s.debug = false) :
    (Scraper.addPage pages url title bm s).debug = false ∧
    (Scraper.addPage pages url title bm s).renderCalls = s.renderCalls ++ [url] ∧
    (Scraper.addPage pages url title bm s).appendLog = s.appendLog ++ [(url, s.numPages)] ∧
    (Scraper.addPage pages url title bm s).numPages = s.numPages + pages url := by
  simp only [Scraper.addPage, h, Bool.false_eq_true, if_false, hd,
    Scraper.appendPdfToOutput, Scraper.createPendingBookmarks, Scraper.bookmarkPage]
  cases bm <;> simp [hd]

theorem popHeading_pushHeading (label : String) (s : Scraper.PdfState) :
    Scraper.popHeading (Scraper.pushHeading label s) = s := by
  simp [Scraper.popHeading, Scraper.pushHeading]

theorem scrapeForest_empty (pages : String → Nat) :
    ∀ f : Scraper.NavForest, Scraper.renderableLeafUrls f = [] →
      ∀ s, Scraper.scrapeForest pages f s = s := by
  intro f
  induction f with
  | nil => intro _ s; rfl
  | leafCons label url rest ih =>
      intro h s
      simp only [Scraper.renderableLeafUrls, List.append_eq_nil] at h
      obtain ⟨h1, h2⟩ := h
      have hurl : pyEndsWith url ".pdf" = true := by
        by_cases hc : pyEndsWith url ".pdf" = true
        · exact hc
        · rw [if_neg hc] at h1; simp at h1
      simp only [Scraper.scrapeForest]
      rw [addPage_skippable pages url label true s hurl]
      exact ih h2 s
  | headingCons label rest ih =>
      intro h s
      simp only [Scraper.renderableLeafUrls] at h
      simp only [Scraper.scrapeForest]
      exact ih h s
  | groupCons label children rest ihc ihr =>
      intro h s
      simp only [Scraper.renderableLeafUrls, List.append_eq_nil] at h
      simp only [Scraper.scrapeForest]
      rw [ihc h.1 _, popHeading_pushHeading]
      exact ihr h.2 s

/-- C2: a Group whose subtree contains no renderable leaf leaves the whole
output state exactly as it was: its heading entry is pushed pending, no
append happens beneath it, and the `pop_heading` at the end of the group
removes it again, so neither realized bookmarks, nor pages, nor the stack
retain any trace of it. -/
theorem c2_empty_group_no_trace (pages : String → Nat) (label : String)
    (children rest : Scraper.NavForest) (s : Scraper.PdfState)
    (h : Scraper.renderableLeafUrls children = []) :
    Scraper.scrapeForest pages (.groupCons label children rest) s
      = Scraper.scrapeForest pages rest s ∧
    Scraper.popHeading (Scraper.scrapeForest pages children (Scraper.pushHeading label s)) = s := by
  have hc := scrapeForest_empty pages children h (Scraper.pushHeading label s)
  constructor
  · simp only [Scraper.scrapeForest]
    rw [hc, popHeading_pushHeading]
  · rw [hc, popHeading_pushHeading]

theorem c2_empty_group_no_trace_witness :
    Scraper.renderableLeafUrls
        (.groupCons "inner" (.leafCons "x" "http://a/doc.pdf" .nil) .nil) = [] ∧
    (Scraper.scrapeForest (fun _ => 1)
        (.groupCons "Advanced"
          (.groupCons "inner" (.leafCons "x" "http://a/doc.pdf" .nil) .nil)
          (.leafCons "B" "http://x/b" .nil))
        (Scraper.initState "o.pdf" 1 false)
      = Scraper.scrapeForest (fun _ => 1) (.leafCons "B" "http://x/b" .nil)
          (Scraper.initState "o.pdf" 1 false) ∧
    Scraper.popHeading
        (Scraper.scrapeForest (fun _ => 1)
          (.groupCons "inner" (.leafCons "x" "http://a/doc.pdf" .nil) .nil)
          (Scraper.pushHeading "Advanced" (Scraper.initState "o.pdf" 1 false)))
      = Scraper.initState "o.pdf" 1 false) := by
  refine ⟨by decide, ?_⟩
  exact c2_empty_group_no_trace (fun _ => 1) "Advanced"
    (.groupCons "inner" (.leafCons "x" "http://a/doc.pdf" .nil) .nil)
    (.leafCons "B" "http://x/b" .nil) (Scraper.initState "o.pdf" 1 false) (by decide)

theorem scrapeForest_calls (pages : String → Nat) :
    ∀ f : Scraper.NavForest, ∀ s : Scraper.PdfState, s.debug = false →
      (Scraper.scrapeForest pages f s).debug = false ∧
      (Scraper.scrapeForest pages f s).renderCalls
        = s.renderCalls ++ Scraper.renderableLeafUrls f ∧
      (Scraper.scrapeForest pages f s).appendLog.map Prod.fst
        = s.appendLog.map Prod.fst ++ Scraper.renderableLeafUrls f := by
  intro f
  induction f with
  | nil =>
      intro s h
      exact ⟨h, by simp [Scraper.scrapeForest, Scraper.renderableLeafUrls],
        by simp [Scraper.scrapeForest, Scraper.renderableLeafUrls]⟩
  | leafCons label url rest ih =>
      intro s h
      simp only [Scraper.scrapeForest, Scraper.renderableLeafUrls]
      by_cases hurl : pyEndsWith url ".pdf" = true
      · rw [addPage_skippable pages url label true s hurl]
        have := ih s h
        simp only [hurl, if_true, List.nil_append]
        exact this
      · have hb : pyEndsWith url ".pdf" = false := by
          revert hurl; cases pyEndsWith url ".pdf" <;> simp
        have hspec := addPage_spec pages url label true s hb h
        have := ih (Scraper.addPage pages url label true s) hspec.1
        refine ⟨this.1, ?_, ?_⟩
        · rw [this.2.1, hspec.2.1]
          simp [hb]
        · rw [this.2.2, hspec.2.2.1]
          simp [hb]
  | headingCons label rest ih =>
      intro s h
      simp only [Scraper.scrapeForest, Scraper.renderableLeafUrls]
      exact ih s h
  | groupCons label children rest ihc ihr =>
      intro s h
      simp only [Scraper.scrapeForest, Scraper.renderableLeafUrls]
      have hpush : (Scraper.pushHeading label s).debug = false := h
      have hc := ihc (Scraper.pushHeading label s) hpush
      have hpop : (Scraper.popHeading
          (Scraper.scrapeForest pages children (Scraper.pushHeading label s))).debug = false :=
        hc.1
      have hr := ihr _ hpop
      refine ⟨hr.1, ?_, ?_⟩
      · rw [hr.2.1]
        have : (Scraper.popHeading
            (Scraper.scrapeForest pages children (Scraper.pushHeading label s))).renderCalls
            = s.renderCalls ++ Scraper.renderableLeafUrls children := by
          simpa [Scraper.popHeading, Scraper.pushHeading] using hc.2.1
        rw [this, List.append_assoc]
      · rw [hr.2.2]
        have : (Scraper.popHeading
            (Scraper.scrapeForest pages children (Scraper.pushHeading label s))).appendLog.map
              Prod.fst
            = s.appendLog.map Prod.fst ++ Scraper.renderableLeafUrls children := by
          simpa [Scraper.popHeading, Scraper.pushHeading] using hc.2.2
        rw [this, List.append_assoc]

/-- C4 amended: the program has no recovery flag and no on-disk reuse: in a
non-debug run the external renderer is invoked exactly once for every
renderable leaf, in traversal order, so re-running the program repeats every
render instead of rendering zero pages; because the traversal is a pure
function of the navigation tree, the repeated run nevertheless produces the
same page sequence and bookmarks. -/
theorem c4_amended (pages : String → Nat) (f : Scraper.NavForest) :
    (Scraper.scrapeForest pages f (Scraper.initState "scraper.pdf" 1 false)).renderCalls
      = Scraper.renderableLeafUrls f := by
  have := (scrapeForest_calls pages f (Scraper.initState "scraper.pdf" 1 false) rfl).2.1
  simpa [Scraper.initState] using this

/-- C4 counterexample: `parse_command_line` registers no recovery flag of any
name (its only arguments are `url`, `--debug`, `--delay`, `-o`, `--output`),
and a run over a single renderable leaf invokes the external renderer once,
not zero times — `add_page` renders unconditionally, never consulting the
disk for an existing artifact. -/
theorem c4_counterexample :
    "--recover" ∉ Scraper.commandLineOptions.flatten ∧
    "--resume" ∉ Scraper.commandLineOptions.flatten ∧
    (Scraper.scrapeForest (fun _ => 1) (.leafCons "A" "http://x/a" .nil)
        (Scraper.initState "scraper.pdf" 1 false)).renderCalls.length = 1 := by
  refine ⟨by decide, by decide, by decide⟩

/-- The position invariant of the assembled document: the recorded positions
of the appended artifacts, followed by the current page count, form a
strictly increasing chain. -/
def posChain (s : Scraper.PdfState) : Prop :=
  List.Chain' (· < ·) ((s.appendLog.map Prod.snd) ++ [s.numPages])

theorem chain_lt_snoc (l : List Nat) (a b : Nat)
    (h : List.Chain' (· < ·) (l ++ [a])) (hab : a < b) :
    List.Chain' (· < ·) ((l ++ [a]) ++ [b]) := by
  rw [List.chain'_append]
  refine ⟨h, List.chain'_singleton b, ?_⟩
  intro x hx y hy
  rw [List.getLast?_concat] at hx
  simp only [List.head?_cons, Option.mem_def, Option.some.injEq] at hx hy
  rw [← hx, ← hy]
  exact hab

theorem scrapeForest_pos (pages : String → Nat) (hp : ∀ u, 1 ≤ pages u) :
    ∀ f : Scraper.NavForest, ∀ s : Scraper.PdfState, s.debug = false → posChain s →
      (Scraper.scrapeForest pages f s).debug = false ∧
      posChain (Scraper.scrapeForest pages f s) := by
  intro f
  induction f with
  | nil => intro s h hpos; exact ⟨h, hpos⟩
  | leafCons label url rest ih =>
      intro s h hpos
      simp only [Scraper.scrapeForest]
      by_cases hurl : pyEndsWith url ".pdf" = true
      · rw [addPage_skippable pages url label true s hurl]
        exact ih s h hpos
      · have hb : pyEndsWith url ".pdf" = false := by
          revert hurl; cases pyEndsWith url ".pdf" <;> simp
        have hspec := addPage_spec pages url label true s hb h
        apply ih _ hspec.1
        unfold posChain
        rw [hspec.2.2.1, hspec.2.2.2]
        have : (s.appendLog ++ [(url, s.numPages)]).map Prod.snd
            = s.appendLog.map Prod.snd ++ [s.numPages] := by simp
        rw [this]
        exact chain_lt_snoc _ _ _ hpos (by have := hp url; omega)
  | headingCons label rest ih =>
      intro s h hpos
      simp only [Scraper.scrapeForest]
      exact ih s h hpos
  | groupCons label children rest ihc ihr =>
      intro s h hpos
      simp only [Scraper.scrapeForest]
      have hpos1 : posChain (Scraper.pushHeading label s) := by
        simpa [posChain, Scraper.pushHeading] using hpos
      have hc := ihc (Scraper.pushHeading label s) h hpos1
      apply ihr
      · exact hc.1
      · simpa [posChain, Scraper.popHeading] using hc.2

/-- C6: in a non-debug run over any navigation forest, the assembled
document's append log lists exactly the renderable leaves in depth-first
document order, and — provided every rendered artifact has at least one
page — the recorded positions are strictly increasing, so a leaf that
precedes another in traversal order occupies a strictly smaller position. -/
theorem c6_leaf_order (pages : String → Nat) (f : Scraper.NavForest)
    (hp : ∀ u, 1 ≤ pages u) :
    ((Scraper.scrapeForest pages f (Scraper.initState "scraper.pdf" 1 false)).appendLog.map
        Prod.fst = Scraper.renderableLeafUrls f) ∧
    ((Scraper.scrapeForest pages f (Scraper.initState "scraper.pdf" 1 false)).appendLog.map
        Prod.snd).Pairwise (· < ·) := by
  constructor
  · have := (scrapeForest_calls pages f (Scraper.initState "scraper.pdf" 1 false) rfl).2.2
    simpa [Scraper.initState] using this
  · have hinit : posChain (Scraper.initState "scraper.pdf" 1 false) := by
      simp [posChain, Scraper.initState]
    have hchain := (scrapeForest_pos pages hp f (Scraper.initState "scraper.pdf" 1 false)
      rfl hinit).2
    unfold posChain at hchain
    have hpw := List.chain'_iff_pairwise.mp hchain
    exact hpw.sublist (List.sublist_append_left _ _)

theorem c6_leaf_order_witness :
    (∀ u : String, 1 ≤ (fun _ : String => 1) u) ∧
    (((Scraper.scrapeForest (fun _ : String => 1)
        (.groupCons "G" (.leafCons "A" "http://x/a" (.leafCons "B" "http://x/b" .nil))
          (.leafCons "C" "http://x/c" .nil))
        (Scraper.initState "scraper.pdf" 1 false)).appendLog.map Prod.fst
      = Scraper.renderableLeafUrls
          (.groupCons "G" (.leafCons "A" "http://x/a" (.leafCons "B" "http://x/b" .nil))
            (.leafCons "C" "http://x/c" .nil))) ∧
    ((Scraper.scrapeForest (fun _ : String => 1)
        (.groupCons "G" (.leafCons "A" "http://x/a" (.leafCons "B" "http://x/b" .nil))
          (.leafCons "C" "http://x/c" .nil))
        (Scraper.initState "scraper.pdf" 1 false)).appendLog.map Prod.snd).Pairwise (· < ·)) :=
  ⟨fun _ => Nat.le_refl 1,
    c6_leaf_order (fun _ => 1)
      (.groupCons "G" (.leafCons "A" "http://x/a" (.leafCons "B" "http://x/b" .nil))
        (.leafCons "C" "http://x/c" .nil)) (fun _ => Nat.le_refl 1)⟩

/-- C7 amended: a `KeyboardInterrupt` observed during traversal is caught by
the handler in `main`, which only prints and returns — `output.finish()` is
never called after an interruption, so nothing that was assembled is written
to the output file and every tracked temporary artifact is left orphaned on
disk (the `cancelled` outcome carries exactly the artifacts tracked at the
moment of interruption). -/
theorem c7_amended (pages : String → Nat) (renderOk : String → Bool) (k : Nat)
    (rootTitle rootUrl : String) (tabs : Scraper.NavForest)
    (outName : String) (delay : Nat) (debug : Bool) (s' : Scraper.PdfState)
    (h : Scraper.scrapeSiteE pages renderOk (some k) rootTitle rootUrl tabs
          (Scraper.initState outName delay debug)
        = .error (.interrupted, s')) :
    Scraper.mainModel pages renderOk (some k) rootTitle rootUrl tabs outName delay debug
      = .cancelled s'.filesToCleanUp := by
  unfold Scraper.mainModel
  rw [h]

theorem c7_amended_witness :
    Scraper.mainModel (fun _ => 1) (fun _ => true) (some 1) "R" "http://r"
        (.leafCons "A" "http://x/a" .nil) "o.pdf" 1 false
      = .cancelled ["r.pdf".data] := by
  have h : Scraper.scrapeSiteE (fun _ => 1) (fun _ => true) (some 1) "R" "http://r"
      (.leafCons "A" "http://x/a" .nil) (Scraper.initState "o.pdf" 1 false)
      = .error (.interrupted,
          ⟨"o.pdf", 1, false, 1, [⟨"R", 0, none, false⟩], ["r.pdf".data],
            [⟨"R", some 0⟩], ["http://r"], [("http://r", 0)], 1⟩) := by rfl
  exact c7_amended (fun _ => 1) (fun _ => true) 1 "R" "http://r"
    (.leafCons "A" "http://x/a" .nil) "o.pdf" 1 false
    ⟨"o.pdf", 1, false, 1, [⟨"R", 0, none, false⟩], ["r.pdf".data],
      [⟨"R", some 0⟩], ["http://r"], [("http://r", 0)], 1⟩ h

/-- C7 counterexample: the same crawl run uninterrupted finishes (`done`,
output written, artifacts cleaned), but interrupted before the second render
it ends `cancelled` with the first page's artifact still on disk: the
finish-and-cleanup path is not reached, contrary to the claim. -/
theorem c7_counterexample :
    Scraper.mainModel (fun _ => 1) (fun _ => true) none "R" "http://r"
        (.leafCons "A" "http://x/a" .nil) "o.pdf" 1 false
      = .done [("http://r", 0), ("http://x/a", 1)] [] ∧
    Scraper.mainModel (fun _ => 1) (fun _ => true) (some 1) "R" "http://r"
        (.leafCons "A" "http://x/a" .nil) "o.pdf" 1 false
      = .cancelled ["r.pdf".data] := by
  refine ⟨by decide, by decide⟩

/-- C8 amended: a render failure raises an exception that `add_page` does not
handle: the failing leaf is abandoned without retry (its attempted render is
recorded, no artifact is appended), but instead of continuing with the next
navigation node the error propagates out of the traversal, aborting the
whole crawl. -/
theorem c8_amended (pages : String → Nat) (renderOk : String → Bool)
    (label url : String) (rest : Scraper.NavForest) (s : Scraper.PdfState)
    (h1 : pyEndsWith url ".pdf" = false) (h2 : s.debug = false)
    (h3 : renderOk url = false) :
    Scraper.scrapeForestE pages renderOk none (.leafCons label url rest) s
      = .error (.renderFailed,
          { s with clock := s.clock + 1, renderCalls := s.renderCalls ++ [url] }) := by
  simp [Scraper.scrapeForestE, Scraper.addPageE, h1, h2, h3]

theorem c8_amended_witness :
    Scraper.scrapeForestE (fun _ => 1) (fun u => !(u == "http://x/a")) none
        (.leafCons "A" "http://x/a" (.leafCons "B" "http://x/b" .nil))
        (Scraper.initState "o.pdf" 1 false)
      = .error (.renderFailed,
          ⟨"o.pdf", 1, false, 0, [], [], [], ["http://x/a"], [], 1⟩) :=
  c8_amended (fun _ => 1) (fun u => !(u == "http://x/a")) "A" "http://x/a"
    (.leafCons "B" "http://x/b" .nil) (Scraper.initState "o.pdf" 1 false)
    (by decide) rfl (by decide)

/-- C8 counterexample: with the renderer failing on the first leaf of two,
the whole run crashes (`finish` never runs, the root artifact is orphaned)
and the render-call log of the propagated error state shows the second leaf
was never attempted — traversal did not continue, contrary to the claim. -/
theorem c8_counterexample :
    Scraper.mainModel (fun _ => 1) (fun u => !(u == "http://x/a")) none "R" "http://r"
        (.leafCons "A" "http://x/a" (.leafCons "B" "http://x/b" .nil)) "o.pdf" 1 false
      = .crashed ["r.pdf".data] ∧
    Scraper.scrapeSiteE (fun _ => 1) (fun u => !(u == "http://x/a")) none "R" "http://r"
        (.leafCons "A" "http://x/a" (.leafCons "B" "http://x/b" .nil))
        (Scraper.initState "o.pdf" 1 false)
      = .error (.renderFailed,
          ⟨"o.pdf", 1, false, 1, [⟨"R", 0, none, false⟩], ["r.pdf".data],
            [⟨"R", some 0⟩], ["http://r", "http://x/a"], [("http://r", 0)], 2⟩) := by
  refine ⟨by decide, by rfl⟩
